import Mathlib

/-!
Verification development for the CBUAE exchange-rate repository
(`scripts/cbuae_extractor.py` and `scripts/install_chrome.py`).

The Python scripts are shallowly embedded: every pure computation is a
Lean function translated from the source, I/O boundaries (browser,
network, subprocesses) become explicit parameters describing the outcome
of each external call, and Python exceptions become `Except`/`Option`
values.  Python `float` arithmetic in the scripts is limited to parsing
a decimal literal and comparing it against the constants `0.0000001`
and `100.0`; the parse is modelled exactly (a scaled integer `n / 10^k`)
and then correctly rounded to an IEEE binary64 value, represented as an
exact dyadic rational, before the comparisons — matching CPython, whose
string-to-float conversion is correctly rounded.  Strings are worked
with through their character lists so that every definition evaluates
inside the kernel.
-/

namespace CBUAE

/-! ### String primitives

Python string operations used by the scripts, modelled on `List Char`.
-/

/-- Boolean test that `ns` is a prefix of the second list
(model of Python `str.startswith`). -/
def listPrefixB : List Char → List Char → Bool
  | [], _ => true
  | _ :: _, [] => false
  | a :: xs, b :: ys => a == b && listPrefixB xs ys

/-- Boolean substring containment on character lists:
`listContainsB needle hay` models Python `needle in hay`. -/
def listContainsB (needle : List Char) : List Char → Bool
  | [] => needle.isEmpty
  | c :: rest => listPrefixB needle (c :: rest) || listContainsB needle rest

/-- `strContainsB hay needle` models Python `needle in hay`. -/
def strContainsB (hay needle : String) : Bool :=
  listContainsB needle.data hay.data

/-- Model of Python `str.lower()` (ASCII case folding, `Char.toLower`). -/
def pyLower (s : String) : String := ⟨s.data.map Char.toLower⟩

/-- Model of Python `str.strip()`: drop whitespace at both ends. -/
def pyStrip (s : String) : String :=
  ⟨((s.data.dropWhile Char.isWhitespace).reverse.dropWhile Char.isWhitespace).reverse⟩

/-- Model of Python `s.replace(c, '')` for a single-character pattern:
every occurrence of the character is removed. -/
def pyReplaceChar (s : String) (c : Char) : String :=
  ⟨s.data.filter (fun a => a != c)⟩

/-! ### Python `float(...)` on decimal literals

`float(clean_text)` in `is_valid_rate` is modelled in two stages, as in
CPython: the literal is parsed exactly (grammar
`[+-]digits[.digits][(e|E)[+-]digits]` with PEP 515 underscore grouping
inside each digit run), giving a scaled integer `n / 10 ^ k`, and that
exact value is then correctly rounded to the nearest IEEE binary64
value (ties to even), which is what the program's comparisons see.
The spellings `inf`/`infinity`/`nan` are treated as unparseable: the
program parses them to values on which both range comparisons are
false, so they cannot change the accept-set.  Strings are taken over
the ASCII repertoire; CPython's pre-normalization of non-ASCII Unicode
digits and whitespace to ASCII is not modelled.
-/

/-- Numeric value of a digit string (most significant first). -/
def natOfDigits (cs : List Char) : Nat :=
  cs.foldl (fun n c => 10 * n + (c.toNat - 48)) 0

/-- Continuation of a digit run with PEP 515 grouping: further digits,
or a single underscore that must be followed by a digit.  Returns the
digits (underscores dropped) and the unconsumed rest; a malformed
underscore is left unconsumed, so the overall parse fails on it. -/
def takeDigitsUCont : List Char → List Char × List Char
  | [] => ([], [])
  | c :: rest =>
    if c.isDigit then
      let p := takeDigitsUCont rest
      (c :: p.1, p.2)
    else if c == '_' then
      match rest with
      | [] => ([], [c])
      | d :: rest2 =>
        if d.isDigit then
          let p := takeDigitsUCont rest2
          (d :: p.1, p.2)
        else ([], c :: d :: rest2)
    else ([], c :: rest)

/-- A digit run in Python's float grammar: it must start with a digit
(no leading underscore) and may contain single underscores between
digits.  Returns the digits and the unconsumed rest. -/
def takeDigitsU : List Char → List Char × List Char
  | [] => ([], [])
  | c :: rest =>
    if c.isDigit then
      let p := takeDigitsUCont rest
      (c :: p.1, p.2)
    else ([], c :: rest)

/-- Parse an unsigned decimal mantissa `digits[.digits]`; at least one
digit must be present on one side of the point.  The value is returned
in scaled-integer form `(m, k)` standing for `m / 10 ^ k`, together
with the unconsumed rest. -/
def parseDecimal? (cs : List Char) : Option (Nat × Nat × List Char) :=
  let ipr := takeDigitsU cs
  match ipr.2 with
  | '.' :: r2 =>
    let fpr := takeDigitsU r2
    if ipr.1.isEmpty && fpr.1.isEmpty then none
    else some (natOfDigits ipr.1 * 10 ^ fpr.1.length + natOfDigits fpr.1, fpr.1.length, fpr.2)
  | _ => if ipr.1.isEmpty then none else some (natOfDigits ipr.1, 0, ipr.2)

/-- Parse a run of one or more digits (with underscore grouping);
returns value and rest. -/
def parseNatDigits? (cs : List Char) : Option (Nat × List Char) :=
  let p := takeDigitsU cs
  if p.1.isEmpty then none else some (natOfDigits p.1, p.2)

/-- Parse an optionally signed digit run (the exponent body). -/
def parseSignedInt? : List Char → Option (Int × List Char)
  | '+' :: rest => (parseNatDigits? rest).map (fun p => ((p.1 : Int), p.2))
  | '-' :: rest => (parseNatDigits? rest).map (fun p => (-(p.1 : Int), p.2))
  | rest => (parseNatDigits? rest).map (fun p => ((p.1 : Int), p.2))

/-- Parse an optional `e`/`E` exponent part; absent exponent is `0`. -/
def parseExponent? : List Char → Option (Int × List Char)
  | 'e' :: rest => parseSignedInt? rest
  | 'E' :: rest => parseSignedInt? rest
  | other => some (0, other)

/-- Model of Python `float(s)` on decimal/scientific literals:
leading/trailing whitespace is ignored, then
`[+-]digits[.digits][(e|E)[+-]digits]`.  The result `(n, k)` is the
exact value in scaled-integer form, `n / 10 ^ k`. -/
def pyFloat? (s : String) : Option (Int × Nat) :=
  let cs := ((s.data.dropWhile Char.isWhitespace).reverse.dropWhile Char.isWhitespace).reverse
  let signAndRest : Int × List Char :=
    match cs with
    | '+' :: r => (1, r)
    | '-' :: r => (-1, r)
    | r => (1, r)
  match parseDecimal? signAndRest.2 with
  | none => none
  | some (m, k, r1) =>
    match parseExponent? r1 with
    | none => none
    | some (e, r2) =>
      if r2.isEmpty then
        if 0 ≤ e then some (signAndRest.1 * (m : Int) * (10 : Int) ^ e.toNat, k)
        else some (signAndRest.1 * (m : Int), k + e.natAbs)
      else none

/-! ### IEEE binary64 rounding

`float()` rounds the exact decimal value to the nearest binary64
(ties to even, overflow to infinity).  A double is represented exactly:
a finite value is a dyadic rational `s * 2 ^ t` (significand carrying
the sign, exponent), infinities are separate constructors; NaN cannot
arise from rounding a rational and is not represented.
-/

/-- An IEEE binary64 value as produced by rounding a rational. -/
inductive Dbl
  | finite (s : Int) (t : Int)
  | inf
  | neginf
deriving DecidableEq, Repr

/-- The IEEE `<=` on the doubles that rounding can produce (no NaN). -/
def dleB : Dbl → Dbl → Bool
  | .neginf, _ => true
  | _, .inf => true
  | .inf, _ => false
  | _, .neginf => false
  | .finite s1 t1, .finite s2 t2 =>
    decide (s1 * 2 ^ (t1 - min t1 t2).toNat ≤ s2 * 2 ^ (t2 - min t1 t2).toNat)

/-- Number of binary digits of `n` (`0` for `n = 0`), written with
explicit fuel so that it evaluates by kernel reduction. -/
def bitLenAux : Nat → Nat → Nat
  | 0, _ => 0
  | fuel + 1, n => if n = 0 then 0 else bitLenAux fuel (n / 2) + 1

/-- `bitLen n = ⌊log₂ n⌋ + 1` for `n ≥ 1`. -/
def bitLen (n : Nat) : Nat := bitLenAux n n

/-- `⌊log₂ (a / b)⌋` for positive naturals `a`, `b`: the bit-length
estimate is off by at most one, fixed by one comparison
(`2 ^ e ≤ a / b  ↔  b * 2 ^ e⁺ ≤ a * 2 ^ e⁻`). -/
def floorLog2 (a b : Nat) : Int :=
  let e0 : Int := (bitLen a : Int) - (bitLen b : Int)
  if b * 2 ^ e0.toNat ≤ a * 2 ^ (-e0).toNat then e0 else e0 - 1

/-- `⌊x / y⌉` rounded to nearest, ties to even. -/
def rheDiv (x y : Nat) : Nat :=
  let q := x / y
  let r := x % y
  if 2 * r < y then q
  else if y < 2 * r then q + 1
  else if q % 2 = 0 then q else q + 1

/-- Correctly rounded binary64 of the positive rational `a / b`:
choose the precision exponent `t` (normal `⌊log₂ (a/b)⌋ - 52`, or the
subnormal fixed `-1074`), round `a / (b * 2 ^ t)` to the nearest
integer significand with ties to even, and overflow to infinity at
`2 ^ 1024`.  The overflow test `2 ^ (1024 - t) ≤ s` is written through
the bit length (`2 ^ m ≤ s ↔ m + 1 ≤ bitLen s`) so that no gigantic
power is computed. -/
def roundPosDbl (a b : Nat) : Dbl :=
  let e := floorLog2 a b
  let t : Int := if e < -1022 then -1074 else e - 52
  let s := rheDiv (a * 2 ^ (-t).toNat) (b * 2 ^ t.toNat)
  if (1024 - t).toNat + 1 ≤ bitLen s then .inf else .finite (s : Int) t

/-- Correctly rounded binary64 of the parsed value `n / 10 ^ k`
(rounding is symmetric in the sign). -/
def roundDouble (n : Int) (k : Nat) : Dbl :=
  if n = 0 then .finite 0 0
  else if 0 < n then roundPosDbl n.natAbs (10 ^ k)
  else
    match roundPosDbl n.natAbs (10 ^ k) with
    | .finite s t => .finite (-s) t
    | _ => .neginf

/-- The exact rational value of a double; `none` for the infinities. -/
def dblValQ? : Dbl → Option ℚ
  | .finite s t => some ((s : ℚ) * (2 : ℚ) ^ t)
  | _ => none

/-! ### `is_valid_rate` (cbuae_extractor.py lines 40–47) -/

/-- Translation of `is_valid_rate`: strip spaces, strip commas, convert
with `float(...)` — exact parse, then rounding to binary64 — and accept
exactly when `0.0000001 <= rate <= 100.0`, both literals themselves
being binary64 values (`roundDouble 1 7` is the double spelled
`0.0000001`; `roundDouble 100 0` is exactly `100.0`); the chained
comparison is the conjunction of the two IEEE comparisons.  Any parse
failure (the `except` arm) yields `false`. -/
def is_valid_rate (text : String) : Bool :=
  let clean_text := pyReplaceChar (pyReplaceChar text ' ') ','
  match pyFloat? clean_text with
  | some (n, k) =>
    dleB (roundDouble 1 7) (roundDouble n k) && dleB (roundDouble n k) (roundDouble 100 0)
  | none => false

/-- Spec-side cleaning step, following the spec's words: "after removing
all space characters and all commas". -/
def removeSpacesCommas (s : String) : String :=
  ⟨s.data.filter (fun c => c != ' ' && c != ',')⟩

/-! ### `extract_exchange_rates` (cbuae_extractor.py lines 49–131)

The browser interaction is abstracted into the outcome of each external
call: whether a driver was obtained (`setup_chrome_driver`), whether
the page/table was reached (`Except Unit`; the outer `except` arm of
the function), and, per row, whether reading the row's cells raised
(`Except Unit (List String)`; the per-row `try`/`except continue`).
The row-scanning logic itself is translated verbatim.
-/

/-- The inner loop over `target_currencies` for one cell text:
`target.lower() in text.lower()` for some target.  The loop's `break`
only stops the scan early; the value recorded is the cell text, so
which target matched is not observable. -/
def cellMatches (target_currencies : List String) (text : String) : Bool :=
  target_currencies.any (fun target => strContainsB (pyLower text) (pyLower target))

/-- The outer cell loop (lines 104–110): the first cell whose text
contains any target fragment becomes `currency_found`. -/
def findCurrency (target_currencies : List String) : List String → Option String
  | [] => none
  | text :: rest =>
    if cellMatches target_currencies text then some text
    else findCurrency target_currencies rest

/-- Python `d[k] = v` on an insertion-ordered dict, modelled as an
association list: an existing key keeps its position but its value is
replaced; a new key is appended. -/
def dictInsert (m : List (String × String)) (k v : String) : List (String × String) :=
  match m with
  | [] => [(k, v)]
  | (k', v') :: rest => if k' == k then (k', v) :: rest else (k', v') :: dictInsert rest k v

/-- Lookup in the association-list model of a dict. -/
def dictLookup (m : List (String × String)) (k : String) : Option String :=
  (m.find? (fun p => p.1 == k)).map (fun p => p.2)

/-- Processing of one `<tr>` (lines 91–122).  `Except.error` is a row
whose cell extraction raised: the `except ... continue` arm leaves the
accumulator untouched.  Otherwise: rows with fewer than two cells are
ignored; the cell texts are stripped; the first matching cell gives the
currency display-text; the first cell passing `is_valid_rate` gives the
rate; only a row with both records a pair. -/
def processRow (target_currencies : List String) (found : List (String × String))
    (row : Except Unit (List String)) : List (String × String) :=
  match row with
  | .error _ => found
  | .ok cells =>
    if 2 ≤ cells.length then
      let all_texts := cells.map pyStrip
      match findCurrency target_currencies all_texts with
      | none => found
      | some currency_found =>
        match all_texts.find? is_valid_rate with
        | none => found
        | some rate_found => dictInsert found currency_found rate_found
    else found

/-- Translation of `extract_exchange_rates`.
`driver` is whether `setup_chrome_driver` returned a driver; `table` is
the outcome of loading the page and locating the table (`.error` is any
exception caught by the outer `except`, which yields `None`); each row
carries the outcome of reading its cells.  An empty result dict is
turned into `None` (`return found_currencies if found_currencies else
None`).  The function is total: no exception reaches the caller. -/
def extract_exchange_rates (target_currencies : List String) (driver : Bool)
    (table : Except Unit (List (Except Unit (List String)))) :
    Option (List (String × String)) :=
  if driver then
    match table with
    | .error _ => none
    | .ok rows =>
      let found_currencies := rows.foldl (processRow target_currencies) []
      if found_currencies.isEmpty then none else some found_currencies
  else none

/-- Spec-side matcher, following the spec's words for claim C2:
"scanning target fragments in caller-supplied order and taking the
first fragment that case-insensitively occurs in any cell's text" — the
fragments are the outer loop, and the recorded display-text is the
first cell containing the selected fragment. -/
def findCurrencySpec (cells : List String) : List String → Option String
  | [] => none
  | target :: rest =>
    match cells.find? (fun text => strContainsB (pyLower text) (pyLower target)) with
    | some text => some text
    | none => findCurrencySpec cells rest

/-! ### `save_metadata` (cbuae_extractor.py lines 205–233)

The file write is abstracted away; what is modelled is the metadata
record the function constructs.  The `datetime.now()` timestamp is a
parameter.  `extraction_stats` as built by `main` always carries
`duration` and `target_currencies`, so the `.get(..., default)`
accesses are modelled as plain fields. -/

structure ExtractionStats where
  duration : ℚ
  target_currencies : List String

structure Metadata where
  last_extraction : String
  extraction_method : String
  currencies_extracted : Nat
  extraction_duration_seconds : ℚ
  success : Bool
  source_url : String
  extractor_version : String
  target_currencies : List String
  notes : String

/-- Translation of the record built by `save_metadata`.  `data` is the
extraction result (`None` or the dict); Python truthiness makes both
`None` and an empty dict take the falsy branch of
`len(data) if data else 0`, `len(data) > 0 if data else False` and the
`notes` conditional. -/
def save_metadata (data : Option (List (String × String))) (extraction_stats : ExtractionStats)
    (now : String) : Metadata :=
  { last_extraction := now
    extraction_method := "selenium_simple"
    currencies_extracted := match data with
      | some d => if d.isEmpty then 0 else d.length
      | none => 0
    extraction_duration_seconds := extraction_stats.duration
    success := match data with
      | some d => if d.isEmpty then false else decide (0 < d.length)
      | none => false
    source_url := "https://www.centralbank.ae/en/forex-eibor/exchange-rates/"
    extractor_version := "1.0.0"
    target_currencies := extraction_stats.target_currencies
    notes := match data with
      | some d =>
        if d.isEmpty then "Extraction failed"
        else "Extracted " ++ toString d.length ++ " currencies successfully"
      | none => "Extraction failed" }

/-! ### `commit_and_push` (cbuae_extractor.py lines 235–279)

Each `subprocess.run` outcome (return code, and for the commit its
standard output) is a parameter.  The function returns a boolean. -/

structure GitEnv where
  statusRc : Int
  addRc : Int
  commitRc : Int
  commitStdout : String
  pushRc : Int

/-- Translation of `commit_and_push`: `git status` must succeed, then
`git add data/`; a failing `git commit` whose stdout contains
"nothing to commit" is success (push skipped); otherwise a failing
commit is failure; after a real commit, success is `git push`'s
return code being zero. -/
def commit_and_push (env : GitEnv) : Bool :=
  if env.statusRc != 0 then false
  else if env.addRc != 0 then false
  else if env.commitRc != 0 then
    (if strContainsB env.commitStdout "nothing to commit" then true else false)
  else if env.pushRc == 0 then true
  else false

/-! ### `ChromeDriverInstaller` (install_chrome.py)

`platform.system().lower()` and `platform.machine().lower()` are the
`system`/`machine` parameters; each HTTP request and subprocess outcome
is a parameter. -/

/-- One `downloads.chromedriver` entry of the Chrome-for-Testing
manifest. -/
structure DownloadInfo where
  platform : String
  url : String

/-- One `versions` entry of the manifest. -/
structure VersionInfo where
  version : String
  chromedriver : List DownloadInfo

/-- The parsed `known-good-versions-with-downloads.json` document. -/
structure Manifest where
  versions : List VersionInfo

/-- The architecture table for Linux in `PLATFORM_MAPPING`. -/
def linuxVariants : List (String × String) :=
  [("x86_64", "linux64"), ("amd64", "linux64"), ("i386", "linux32"), ("i686", "linux32")]

/-- The architecture table for macOS in `PLATFORM_MAPPING`. -/
def darwinVariants : List (String × String) :=
  [("x86_64", "mac-x64"), ("arm64", "mac-arm64")]

/-- The architecture table for Windows in `PLATFORM_MAPPING`. -/
def windowsVariants : List (String × String) :=
  [("amd64", "win64"), ("x86_64", "win64"), ("i386", "win32")]

/-- `PLATFORM_MAPPING` (install_chrome.py lines 32–48). -/
def PLATFORM_MAPPING : List (String × List (String × String)) :=
  [("linux", linuxVariants), ("darwin", darwinVariants), ("windows", windowsVariants)]

/-- Python `dict` lookup `d.get(k)` / `k in d` on the fixed tables. -/
def assocLookup {α : Type} (l : List (String × α)) (k : String) : Option α :=
  (l.find? (fun p => p.1 == k)).map (fun p => p.2)

/-- Translation of `get_platform_identifier` (lines 85–110): unknown
system → `None`; known system with a machine in the fixed table → its
tag; known system with any other machine → a heuristic fallback tag
chosen by substring tests on the machine string. -/
def get_platform_identifier (system machine : String) : Option String :=
  match assocLookup PLATFORM_MAPPING system with
  | none => none
  | some platform_variants =>
    match assocLookup platform_variants machine with
    | some tag => some tag
    | none =>
      if system == "linux" then
        some (if strContainsB machine "64" then "linux64" else "linux32")
      else if system == "darwin" then
        some (if strContainsB machine "arm" then "mac-arm64" else "mac-x64")
      else if system == "windows" then
        some (if strContainsB machine "64" then "win64" else "win32")
      else none

/-- The network endpoints `get_compatible_chromedriver_version` may
contact, in the order contacted. -/
inductive NetReq | modern | legacy
deriving DecidableEq, Repr

/-- How version resolution can fail: the `ValueError` for an
unsupported platform, or the final `RuntimeError` when both APIs are
exhausted. -/
inductive ResolveErr | unsupportedPlatform | noVersion
deriving DecidableEq, Repr

/-- `'...'.split('.')[0]`: the characters before the first dot. -/
def takeMajor (cs : List Char) : List Char :=
  cs.takeWhile (fun c => c != '.')

/-- Scan of a version entry's `chromedriver` downloads for the resolved
platform tag (lines 197–201 and 213–217). -/
def findPlatformDownload (platform_id : String) (ds : List DownloadInfo) : Option String :=
  (ds.find? (fun d => d.platform == platform_id)).map (fun d => d.url)

/-- The major-version loop (lines 188–204): walk `versions` in reverse,
take the first entry whose version string starts with the browser's
major version and which offers a download for the platform tag. -/
def findMajorMatch (chrome_version : String) (platform_id : String) (m : Manifest) :
    Option (String × String) :=
  (m.versions.reverse).findSome? (fun vi =>
    if listPrefixB (takeMajor chrome_version.data) vi.version.data then
      (findPlatformDownload platform_id vi.chromedriver).map (fun u => (vi.version, u))
    else none)

/-- The `versions[-1]` fallback (lines 207–217): the manifest's latest
entry, if it offers a download for the platform tag. -/
def latestLookup (platform_id : String) (m : Manifest) : Option (String × String) :=
  match m.versions.getLast? with
  | none => none
  | some vi => (findPlatformDownload platform_id vi.chromedriver).map (fun u => (vi.version, u))

/-- The whole modern-API phase on a successfully fetched manifest:
major-version match when a browser version was detected, otherwise (or
when no major match exists) the latest entry. -/
def modernLookup (chrome_version : Option String) (platform_id : String) (m : Manifest) :
    Option (String × String) :=
  let fromMajor := match chrome_version with
    | none => none
    | some cv => findMajorMatch cv platform_id m
  match fromMajor with
  | some p => some p
  | none => latestLookup platform_id m

/-- The download URL built in the legacy branch (line 236). -/
def legacyUrl (platform_id version : String) : String :=
  "https://chromedriver.storage.googleapis.com/" ++ version ++
    "/chromedriver_" ++ platform_id ++ ".zip"

/-- Outcome of the legacy-API branch (lines 228–245): a fetched body is
stripped and paired with the constructed URL; a failed request leads to
the final `RuntimeError`. -/
def legacyOutcome (platform_id : String) : Except Unit String → Except ResolveErr (String × String)
  | .error _ => .error .noVersion
  | .ok body => .ok (pyStrip body, legacyUrl platform_id (pyStrip body))

/-- Translation of `get_compatible_chromedriver_version`
(lines 159–245), returning the result together with the trace of
network requests attempted.  `chrome_version` is what
`get_chrome_version` detected (subprocess calls, not network);
`platform_id` is `get_platform_identifier`'s result; `modernApi` and
`legacyApi` are the outcomes of the two HTTP requests (`.error` being
any exception: network failure, bad status, malformed JSON). -/
def get_compatible_chromedriver_version (chrome_version : Option String)
    (platform_id : Option String) (modernApi : Except Unit Manifest)
    (legacyApi : Except Unit String) :
    Except ResolveErr (String × String) × List NetReq :=
  match platform_id with
  | none => (.error .unsupportedPlatform, [])
  | some pid =>
    let modernRes : Option (String × String) :=
      match modernApi with
      | .error _ => none
      | .ok m => modernLookup chrome_version pid m
    match modernRes with
    | some p => (.ok p, [.modern])
    | none => (legacyOutcome pid legacyApi, [.modern, .legacy])

/-! ### `ChromeDriverInstaller.install` (install_chrome.py lines 496–531) -/

/-- Outcomes of the external steps `install` and `_install_manual`
depend on.  `pmResult` is `install_via_package_manager` (`.error` is an
exception escaping a method, caught by `install`'s `except ...
continue`); `resolve`/`download`/`installSys` are the three stages of
`_install_manual`; the two `verify` fields are the outcomes of
`verify_installation` when called after each method (it catches its own
exceptions and returns a boolean).  `install_python_dependencies` only
logs a warning on failure and cannot change the result, so it is not a
parameter. -/
structure InstallEnv where
  pmResult : Except Unit Bool
  verifyAfterPm : Bool
  resolve : Except ResolveErr (String × String)
  download : Except Unit String
  installSys : String → Bool
  verifyAfterManual : Bool

/-- Translation of `_install_manual` (lines 533–546): resolve a
version, download and extract, install to the system; any exception in
the chain is caught and becomes `False`. -/
def installManual (resolve : Except ResolveErr (String × String))
    (download : Except Unit String) (installSys : String → Bool) : Bool :=
  match resolve with
  | .error _ => false
  | .ok _ =>
    match download with
    | .error _ => false
    | .ok path => installSys path

/-- One iteration of `install`'s method loop: the method must return
`True` (an exception counts as failure and falls through to the next
method) and then `verify_installation` must succeed. -/
def tryMethod (methodResult : Except Unit Bool) (verify : Bool) : Bool :=
  match methodResult with
  | .error _ => false
  | .ok installed => installed && verify

/-- Translation of `install`: package manager then manual download, in
that order; the first method that installs and verifies returns
`True`; exhausting both returns `False`. -/
def install (env : InstallEnv) : Bool :=
  if tryMethod env.pmResult env.verifyAfterPm then true
  else if tryMethod (.ok (installManual env.resolve env.download env.installSys))
      env.verifyAfterManual then true
  else false

/-! ## Helper lemmas -/

/-- Folding over a list is unchanged by deleting an element on which
the folding function acts as the identity. -/
theorem foldl_skip {α β : Type} (f : β → α → β) (x : α) (hx : ∀ b, f b x = b)
    (init : β) (pre post : List α) :
    (pre ++ x :: post).foldl f init = (pre ++ post).foldl f init := by
  simp [List.foldl_append, hx]

/-- Removing spaces and then commas is the same as removing both
character classes in one pass. -/
theorem filter_space_comma (l : List Char) :
    (l.filter (fun a => a != ' ')).filter (fun a => a != ',') =
      l.filter (fun c => c != ' ' && c != ',') := by
  rw [List.filter_filter]
  exact List.filter_congr (fun a _ => by rw [Bool.and_comm])

/-- The code's two `replace` calls equal the spec's one-pass removal of
spaces and commas. -/
theorem clean_eq (s : String) :
    pyReplaceChar (pyReplaceChar s ' ') ',' = removeSpacesCommas s :=
  congrArg String.mk (filter_space_comma s.data)

/-- The scaled-integer comparison inside `dleB` decides exactly the
order of the denoted dyadic rational values. -/
theorem dleB_finite_iff (s1 t1 s2 t2 : Int) :
    dleB (.finite s1 t1) (.finite s2 t2) = true ↔
      (s1 : ℚ) * (2 : ℚ) ^ t1 ≤ (s2 : ℚ) * (2 : ℚ) ^ t2 := by
  have h2pos : (0 : ℚ) < (2 : ℚ) ^ (min t1 t2) := by positivity
  have e1 : (2 : ℚ) ^ t1 = (2 : ℚ) ^ ((t1 - min t1 t2).toNat) * (2 : ℚ) ^ (min t1 t2) := by
    rw [← zpow_natCast (2 : ℚ) ((t1 - min t1 t2).toNat), ← zpow_add₀ (two_ne_zero)]
    congr 1
    omega
  have e2 : (2 : ℚ) ^ t2 = (2 : ℚ) ^ ((t2 - min t1 t2).toNat) * (2 : ℚ) ^ (min t1 t2) := by
    rw [← zpow_natCast (2 : ℚ) ((t2 - min t1 t2).toNat), ← zpow_add₀ (two_ne_zero)]
    congr 1
    omega
  constructor
  · intro h
    have hInt : s1 * 2 ^ (t1 - min t1 t2).toNat ≤ s2 * 2 ^ (t2 - min t1 t2).toNat := by
      simpa [dleB] using h
    have hQ : (s1 : ℚ) * (2 : ℚ) ^ ((t1 - min t1 t2).toNat) ≤
        (s2 : ℚ) * (2 : ℚ) ^ ((t2 - min t1 t2).toNat) := by
      exact_mod_cast hInt
    rw [e1, e2, ← mul_assoc, ← mul_assoc]
    exact mul_le_mul_of_nonneg_right hQ (le_of_lt h2pos)
  · intro h
    rw [e1, e2, ← mul_assoc, ← mul_assoc] at h
    have hQ := le_of_mul_le_mul_right h h2pos
    have hInt : s1 * 2 ^ (t1 - min t1 t2).toNat ≤ s2 * 2 ^ (t2 - min t1 t2).toNat := by
      exact_mod_cast hQ
    simp [dleB, hInt]

/-- After a Python-style dict write `d[k] = v`, looking up `k` yields
`v`, whatever was stored before. -/
theorem dictLookup_dictInsert (m : List (String × String)) (k v : String) :
    dictLookup (dictInsert m k v) k = some v := by
  induction m with
  | nil => simp [dictInsert, dictLookup, List.find?]
  | cons head rest ih =>
    by_cases h : head.1 == k
    · simp [dictInsert, dictLookup, List.find?, h]
    · simp only [dictInsert]
      rw [if_neg (by simpa using h)]
      simpa [dictLookup, List.find?, h] using ih

end CBUAE

namespace CBUAE

/-! ## Claim theorems -/

/-- C5: `ChromeDriverInstaller.install` tries the package manager and
then manual download, each followed by verification; it returns `True`
exactly when the first of the two methods that both installs and
verifies exists (package manager verified, or else manual verified),
and `False` when both are exhausted. -/
theorem install_first_verified_success_wins (env : InstallEnv) :
    install env = true ↔
      ((env.pmResult = .ok true ∧ env.verifyAfterPm = true) ∨
        (¬(env.pmResult = .ok true ∧ env.verifyAfterPm = true) ∧
          installManual env.resolve env.download env.installSys = true ∧
          env.verifyAfterManual = true)) := by
  obtain ⟨pm, vpm, res, dl, ins, vman⟩ := env
  rcases pm with u | b
  · cases vman <;> simp [install, tryMethod]
  · cases b <;> cases vpm <;> cases vman <;>
      simp [install, tryMethod]

/-- C8: when the `git commit` step finds zero staged changes (a
non-zero return code with "nothing to commit" in its standard output),
`commit_and_push` reports success. -/
theorem commit_and_push_nothing_to_commit_success (env : GitEnv)
    (hstatus : env.statusRc = 0) (hadd : env.addRc = 0) (hcommit : env.commitRc ≠ 0)
    (hmsg : strContainsB env.commitStdout "nothing to commit" = true) :
    commit_and_push env = true := by
  simp [commit_and_push, hstatus, hadd, hcommit, hmsg]

/-- Witness for C8: a concrete session in which `git status` and
`git add` succeed and the commit exits 1 with the usual
"nothing to commit" message. -/
theorem commit_and_push_nothing_to_commit_success_witness :
    commit_and_push
      { statusRc := 0, addRc := 0, commitRc := 1
        commitStdout := "On branch main\nnothing to commit, working tree clean"
        pushRc := 1 } = true :=
  commit_and_push_nothing_to_commit_success
    { statusRc := 0, addRc := 0, commitRc := 1
      commitStdout := "On branch main\nnothing to commit, working tree clean"
      pushRc := 1 }
    rfl rfl (by decide) (by decide)

/-- C9: a table row with fewer than two cells contributes no
currency→rate pair: processing it leaves the accumulated mapping
untouched, and deleting it from the table leaves the extraction result
unchanged. -/
theorem short_row_contributes_nothing (target_currencies : List String)
    (found : List (String × String)) (cells : List String)
    (hshort : cells.length < 2) :
    processRow target_currencies found (.ok cells) = found ∧
      ∀ (driver : Bool) (pre post : List (Except Unit (List String))),
        extract_exchange_rates target_currencies driver (.ok (pre ++ .ok cells :: post)) =
          extract_exchange_rates target_currencies driver (.ok (pre ++ post)) := by
  have hrow : ∀ m, processRow target_currencies m (.ok cells) = m := by
    intro m
    have : ¬ 2 ≤ cells.length := by omega
    simp [processRow, this]
  refine ⟨hrow found, ?_⟩
  intro driver pre post
  cases driver
  · simp [extract_exchange_rates]
  · simp only [extract_exchange_rates]
    rw [foldl_skip (processRow target_currencies) (.ok cells) hrow]

/-- Witness for C9: a one-cell row whose text contains the target
fragment is still dropped. -/
theorem short_row_contributes_nothing_witness :
    processRow ["US Dollar"] [] (.ok ["US Dollar"]) = [] :=
  (short_row_contributes_nothing ["US Dollar"] [] ["US Dollar"] (by decide)).1

/-- C10: every metadata record satisfies
`success = (currencies_extracted > 0)`; in particular, the record
written when extraction returned no data has `success = False` and
`currencies_extracted = 0`, and `success = True` never coexists with a
zero count. -/
theorem save_metadata_success_iff_nonzero (data : Option (List (String × String)))
    (extraction_stats : ExtractionStats) (now : String) :
    ((save_metadata data extraction_stats now).success =
        decide (0 < (save_metadata data extraction_stats now).currencies_extracted)) ∧
      (save_metadata none extraction_stats now).success = false ∧
      (save_metadata none extraction_stats now).currencies_extracted = 0 := by
  refine ⟨?_, rfl, rfl⟩
  rcases data with _ | d
  · simp [save_metadata]
  · rcases d with _ | ⟨p, rest⟩ <;> simp [save_metadata]

/-- C1 (counterexample): first-seen-wins fails.  In a table whose two
rows both display "US Dollar" with the distinct valid rates "3.6725"
and then "3.7000", the retained rate is the second row's "3.7000",
not the first matching row's "3.6725": the dict write
`found_currencies[currency_found] = rate_found` overwrites. -/
theorem extract_first_seen_wins_cex :
    extract_exchange_rates ["US Dollar"] true
        (.ok [.ok ["US Dollar", "3.6725"], .ok ["US Dollar", "3.7000"]]) =
      some [("US Dollar", "3.7000")] ∧
      is_valid_rate "3.6725" = true ∧ is_valid_rate "3.7000" = true ∧
      ("3.7000" : String) ≠ "3.6725" := by
  refine ⟨by decide, by decide, by decide, by decide⟩

/-- C1 (amended): once a currency display-text has been recorded, a
later row matching the same display-text with a different valid rate
DOES overwrite the recorded rate — the last matching row's rate is the
one retained.  (Rows whose matched display-text differs are stored
under their own key and leave earlier keys alone.)  Stated generally:
after processing a matching row, the mapping holds that row's rate for
its display-text, whatever was recorded before. -/
theorem processRow_same_display_text_last_wins (target_currencies : List String)
    (found : List (String × String)) (cells : List String)
    (currency rate : String) (hlen : 2 ≤ cells.length)
    (hcur : findCurrency target_currencies (cells.map pyStrip) = some currency)
    (hrate : (cells.map pyStrip).find? is_valid_rate = some rate) :
    dictLookup (processRow target_currencies found (.ok cells)) currency = some rate := by
  simp only [processRow, if_pos hlen, hcur, hrate]
  exact dictLookup_dictInsert found currency rate

/-- Witness for the amended C1: a mapping already recording
"US Dollar" ↦ "3.6725" is overwritten by a later matching row carrying
"3.7000". -/
theorem processRow_same_display_text_last_wins_witness :
    dictLookup
        (processRow ["US Dollar"] [("US Dollar", "3.6725")] (.ok ["US Dollar", "3.7000"]))
        "US Dollar" = some "3.7000" :=
  processRow_same_display_text_last_wins ["US Dollar"] [("US Dollar", "3.6725")]
    ["US Dollar", "3.7000"] "US Dollar" "3.7000" (by decide) (by decide) (by decide)

/-- C2 (counterexample): the row matcher is cell-major, not
fragment-major.  With fragments `["US Dollar", "Euro"]` and row cells
`["Euro note", "US Dollar", "3.5"]`, the code records the first cell
containing any fragment ("Euro note"), whereas scanning fragments in
caller-supplied order and taking the first fragment occurring in any
cell (the claim, `findCurrencySpec`) would record "US Dollar". -/
theorem findCurrency_cell_major_cex :
    findCurrency ["US Dollar", "Euro"] ["Euro note", "US Dollar"] = some "Euro note" ∧
      findCurrencySpec ["Euro note", "US Dollar"] ["US Dollar", "Euro"] = some "US Dollar" ∧
      ("Euro note" : String) ≠ "US Dollar" ∧
      extract_exchange_rates ["US Dollar", "Euro"] true
          (.ok [.ok ["Euro note", "US Dollar", "3.5"]]) =
        some [("Euro note", "3.5")] := by
  refine ⟨by decide, by decide, by decide, by decide⟩

/-- C2 (amended): the currency matched for a row is determined by
scanning the row's CELLS in order and taking the first cell that
case-insensitively contains any of the target fragments; the
caller-supplied fragment order never changes which cell is recorded. -/
theorem findCurrency_first_matching_cell_wins (target_currencies : List String)
    (pre : List String) (text : String) (post : List String)
    (hpre : ∀ t ∈ pre, cellMatches target_currencies t = false)
    (htext : cellMatches target_currencies text = true) :
    findCurrency target_currencies (pre ++ text :: post) = some text := by
  induction pre with
  | nil => simp [findCurrency, htext]
  | cons p ps ih =>
    have hp : cellMatches target_currencies p = false := hpre p (by simp)
    simp only [List.cons_append, findCurrency, hp]
    simp only [Bool.false_eq_true, if_false]
    exact ih (fun t ht => hpre t (by simp [ht]))

/-- Witness for the amended C2: the cell "US Dollar" is preceded by a
non-matching numeric cell and followed by another cell; the matching
cell itself is recorded. -/
theorem findCurrency_first_matching_cell_wins_witness :
    findCurrency ["US Dollar"] (["3.67"] ++ "US Dollar" :: ["x"]) = some "US Dollar" :=
  findCurrency_first_matching_cell_wins ["US Dollar"] ["3.67"] "US Dollar" ["x"]
    (by decide) (by decide)

/-- C4: `extract_exchange_rates` never propagates an exception (its
model is a total function into `Option`): an unavailable driver yields
`none`; a failure to load the page or find the table (the outer
`except` arm) yields `none`; and a row whose parsing raises is skipped
— deleting that row from the table leaves the result unchanged, so all
other rows are still processed. -/
theorem extract_exchange_rates_failure_policy (target_currencies : List String)
    (table : Except Unit (List (Except Unit (List String)))) :
    extract_exchange_rates target_currencies false table = none ∧
      extract_exchange_rates target_currencies true (.error ()) = none ∧
      ∀ pre post : List (Except Unit (List String)),
        extract_exchange_rates target_currencies true (.ok (pre ++ .error () :: post)) =
          extract_exchange_rates target_currencies true (.ok (pre ++ post)) := by
  refine ⟨by simp [extract_exchange_rates], rfl, ?_⟩
  intro pre post
  simp only [extract_exchange_rates]
  rw [foldl_skip (processRow target_currencies) (.error ()) (fun _ => rfl)]

/-- C6: version resolution queries the modern manifest first; a usable
(version, URL) pair found there is returned with no legacy request.
Within the modern phase, an undetected browser version, and likewise a
detected version with no matching build, fall back to the manifest's
latest entry.  Only when the modern phase yields no usable pair (lookup
empty or request failed) is the legacy endpoint queried, and exhausting
both yields the error. -/
theorem version_resolution_cascade (chrome_version : Option String) (pid : String)
    (modernApi : Except Unit Manifest) (legacyApi : Except Unit String) :
    (∀ m p, modernApi = .ok m → modernLookup chrome_version pid m = some p →
        get_compatible_chromedriver_version chrome_version (some pid) modernApi legacyApi =
          (.ok p, [.modern])) ∧
      (∀ m, modernLookup none pid m = latestLookup pid m) ∧
      (∀ cv m, findMajorMatch cv pid m = none →
        modernLookup (some cv) pid m = latestLookup pid m) ∧
      (∀ m, modernApi = .ok m → modernLookup chrome_version pid m = none →
        get_compatible_chromedriver_version chrome_version (some pid) modernApi legacyApi =
          (legacyOutcome pid legacyApi, [.modern, .legacy])) ∧
      (modernApi = .error () →
        get_compatible_chromedriver_version chrome_version (some pid) modernApi legacyApi =
          (legacyOutcome pid legacyApi, [.modern, .legacy])) ∧
      (∀ m, modernApi = .ok m → modernLookup chrome_version pid m = none →
        legacyApi = .error () →
        (get_compatible_chromedriver_version chrome_version (some pid) modernApi
            legacyApi).1 = .error .noVersion) := by
  refine ⟨?_, ?_, ?_, ?_, ?_, ?_⟩
  · intro m p hm hl
    subst hm
    simp [get_compatible_chromedriver_version, hl]
  · intro m
    simp [modernLookup]
  · intro cv m h
    simp [modernLookup, h]
  · intro m hm hl
    subst hm
    simp [get_compatible_chromedriver_version, hl]
  · intro hm
    subst hm
    simp [get_compatible_chromedriver_version]
  · intro m hm hl hleg
    subst hm
    subst hleg
    simp [get_compatible_chromedriver_version, hl, legacyOutcome]

/-- Witness for C6: on a one-entry manifest offering a linux64 build
for Chrome major 120, resolution returns that entry without touching
the legacy endpoint; on an empty manifest with the legacy request also
failing, resolution ends in the error. -/
theorem version_resolution_cascade_witness :
    get_compatible_chromedriver_version (some "120.0.6099.109") (some "linux64")
        (.ok { versions := [{ version := "120.0.6099.129"
                              chromedriver := [{ platform := "linux64"
                                                 url := "https://example.invalid/cd.zip" }] }] })
        (.ok "ignored") =
      (.ok ("120.0.6099.129", "https://example.invalid/cd.zip"), [.modern]) ∧
    (get_compatible_chromedriver_version none (some "linux64")
        (.ok { versions := [] }) (.error ())).1 = .error .noVersion :=
  ⟨(version_resolution_cascade (some "120.0.6099.109") "linux64"
      (.ok { versions := [{ version := "120.0.6099.129"
                            chromedriver := [{ platform := "linux64"
                                               url := "https://example.invalid/cd.zip" }] }] })
      (.ok "ignored")).1
      { versions := [{ version := "120.0.6099.129"
                       chromedriver := [{ platform := "linux64"
                                          url := "https://example.invalid/cd.zip" }] }] }
      ("120.0.6099.129", "https://example.invalid/cd.zip") rfl (by decide),
    (version_resolution_cascade none "linux64" (.ok { versions := [] })
      (.error ())).2.2.2.2.2 { versions := [] } rfl (by decide) rfl⟩

/-- C7 (counterexample): the pair (linux, riscv64) is not covered by
the fixed OS+CPU mapping, yet platform identification does not fail: it
returns the heuristic fallback tag "linux64" (and "linux32" for a
riscv32 machine) instead of an explicit failure. -/
theorem platform_identifier_arch_fallback_cex :
    assocLookup linuxVariants "riscv64" = none ∧
      get_platform_identifier "linux" "riscv64" = some "linux64" ∧
      get_platform_identifier "linux" "riscv32" = some "linux32" := by
  refine ⟨by decide, by decide, by decide⟩

/-- C7 (amended): platform identification fails exactly when the
operating system itself is unrecognized (not linux, darwin or
windows); an unrecognized architecture under a recognized OS instead
receives a heuristic fallback tag.  When identification does fail,
version resolution raises the unsupported-platform error with an empty
network-request trace, i.e. before any network request is attempted. -/
theorem platform_identifier_failure_iff_unknown_system (system machine : String) :
    (get_platform_identifier system machine = none ↔
        (system ≠ "linux" ∧ system ≠ "darwin" ∧ system ≠ "windows")) ∧
      ∀ (chrome_version : Option String) (modernApi : Except Unit Manifest)
        (legacyApi : Except Unit String),
        get_compatible_chromedriver_version chrome_version none modernApi legacyApi =
          (.error .unsupportedPlatform, []) := by
  refine ⟨?_, fun _ _ _ => rfl⟩
  by_cases h1 : system = "linux"
  · subst h1
    have houter : assocLookup PLATFORM_MAPPING "linux" = some linuxVariants := rfl
    rcases hm : assocLookup linuxVariants machine with _ | tag <;>
      simp [get_platform_identifier, houter, hm]
  · by_cases h2 : system = "darwin"
    · subst h2
      have houter : assocLookup PLATFORM_MAPPING "darwin" = some darwinVariants := rfl
      rcases hm : assocLookup darwinVariants machine with _ | tag <;>
        simp [get_platform_identifier, houter, hm]
    · by_cases h3 : system = "windows"
      · subst h3
        have houter : assocLookup PLATFORM_MAPPING "windows" = some windowsVariants := rfl
        rcases hm : assocLookup windowsVariants machine with _ | tag <;>
          simp [get_platform_identifier, houter, hm]
      · have b1 : ("linux" == system) = false := by
          simp [beq_iff_eq]
          exact fun e => h1 e.symm
        have b2 : ("darwin" == system) = false := by
          simp [beq_iff_eq]
          exact fun e => h2 e.symm
        have b3 : ("windows" == system) = false := by
          simp [beq_iff_eq]
          exact fun e => h3 e.symm
        simp [get_platform_identifier, assocLookup, PLATFORM_MAPPING, List.find?,
          b1, b2, b3, h1, h2, h3]

/-- C3: `is_valid_rate` accepts a string exactly when, after removing
all space characters and all commas, it parses as a float — the exact
decimal value correctly rounded to binary64 — whose value lies in the
inclusive range `[0.0000001, 100.0]`, the bounds being the binary64
values of the two literals (the lower literal is not exactly 10⁻⁷; the
upper is exactly 100).  Strings outside the range or not parseable,
including overflows to infinity, are rejected. -/
theorem is_valid_rate_iff_parse_in_range (s : String) :
    is_valid_rate s = true ↔
      ∃ n k q lo, pyFloat? (removeSpacesCommas s) = some (n, k) ∧
        dblValQ? (roundDouble n k) = some q ∧
        dblValQ? (roundDouble 1 7) = some lo ∧
        lo ≤ q ∧ q ≤ 100 := by
  have hlo : roundDouble 1 7 = .finite 7555786372591432 (-76) := by decide
  have hhi : roundDouble 100 0 = .finite 7036874417766400 (-46) := by decide
  have hhival : ((7036874417766400 : Int) : ℚ) * (2 : ℚ) ^ (-46 : Int) = 100 := by
    norm_num
  simp only [is_valid_rate]
  rw [clean_eq s]
  rcases hp : pyFloat? (removeSpacesCommas s) with _ | ⟨n, k⟩
  · simp
  · dsimp only
    rw [hlo, hhi]
    rcases hr : roundDouble n k with ⟨sr, tr⟩ | _ | _
    · rw [Bool.and_eq_true, dleB_finite_iff, dleB_finite_iff]
      constructor
      · rintro ⟨hA, hB⟩
        refine ⟨n, k, (sr : ℚ) * (2 : ℚ) ^ tr,
          ((7555786372591432 : Int) : ℚ) * (2 : ℚ) ^ (-76 : Int), rfl, ?_, ?_, hA, ?_⟩
        · rw [hr]
          rfl
        · rfl
        · rw [← hhival]
          exact hB
      · rintro ⟨n1, k1, q, lo, heq, hq, hlo2, h1, h2⟩
        obtain ⟨rfl, rfl⟩ : n = n1 ∧ k = k1 := by simpa using heq
        rw [hr] at hq
        simp only [dblValQ?, Option.some.injEq] at hq hlo2
        subst hq
        subst hlo2
        exact ⟨h1, by rw [hhival]; exact h2⟩
    · simp [hr, dleB, dblValQ?]
    · simp [hr, dleB, dblValQ?]

end CBUAE
